import Mathlib

/-!
Shallow embedding of the OrientExpress federation/normalization engine
(`src/impl.py`, with the licence-search variant of `src/Handler.py`).

Long relations (pandas DataFrames of SPARQL/SQL results) are lists of typed
rows; the wide pivot of `BasicQueryEngine._df_to_wide` is a column list plus
one field list per subject; Python exceptions are modelled with `Except`.
-/

namespace OrientExpress

/-- Python errors that the modelled code can raise. -/
inductive PyErr where
  | backend
  | keyError (k : String)
  | typeError
  | valueError
  | indexError
deriving DecidableEq

/-- Exact-duplicate elimination keeping the first occurrence of each element,
as `pandas.DataFrame.drop_duplicates` and `pandas.unique` do: the head is
kept and every later copy of it is removed (filtering the already-deduped
tail keeps the recursion structural). -/
def dedupFirst {α : Type} [DecidableEq α] : List α → List α
  | [] => []
  | a :: l => a :: (dedupFirst l).filter (fun x => x ≠ a)

/-- Sequential traversal of a list under `Except`, stopping at the first
error, as a Python loop or list comprehension does. -/
def exceptMapM {ε α β : Type} (f : α → Except ε β) : List α → Except ε (List β)
  | [] => .ok []
  | a :: l =>
    match f a with
    | .error e => .error e
    | .ok b =>
      match exceptMapM f l with
      | .error e => .error e
      | .ok bs => .ok (b :: bs)

/-- Lexicographic comparison of character lists by code point, as Python
compares strings. -/
def charListLe : List Char → List Char → Bool
  | [], _ => true
  | _ :: _, [] => false
  | a :: l, b :: m =>
    if a.toNat < b.toNat then true
    else if b.toNat < a.toNat then false
    else charListLe l m

/-- Python's string order (code-point lexicographic). -/
def strLe (a b : String) : Bool := charListLe a.data b.data

/-- Insertion of a string into an ascending list, for `sortStr`. -/
def insertAsc (a : String) : List String → List String
  | [] => [a]
  | b :: l => if strLe a b then a :: b :: l else b :: insertAsc a l

/-- String sort used to model the ascending sort that `pandas.pivot_table`
applies to the group keys (code-point order, as in Python; the keys are
already distinct when sorted, so any comparison sort gives the pandas
order). -/
def sortStr : List String → List String
  | [] => []
  | a :: l => insertAsc a (sortStr l)

/-- Python `str.split(sep)` with a one-character separator: split at every
occurrence, keeping empty pieces (the result is never empty). -/
def splitChar (c : Char) : List Char → List (List Char)
  | [] => [[]]
  | a :: l =>
    let r := splitChar c l
    if a == c then [] :: r
    else
      match r with
      | [] => [[a]]
      | g :: gs => (a :: g) :: gs

/-- ASCII lower-casing, as the Python `str.lower()` calls of the mapper and
the SPARQL `LCASE` act on the ASCII data of this system. -/
def toLowerStr (s : String) : String := ⟨s.data.map Char.toLower⟩

/-- One row of a long (subject, predicate, object) relation, as produced by
`JournalQueryHandler._query_to_df` in `src/impl.py` (all three components are
rendered with `str`, hence strings). -/
structure Row where
  subject : String
  predicate : String
  object : String
deriving DecidableEq

/-- One row of the SQLite `journal_category` projection
`SELECT DISTINCT category_id, quartile, area` (`quartile` is nullable). -/
structure CatRow where
  category_id : String
  quartile : Option String
  area : String
deriving DecidableEq

/-- One row of `SELECT issn, category_id FROM journal_category`
(`CategoryQueryHandler.getCategoryLinks`). -/
structure LinkRow where
  issn : String
  category_id : String
deriving DecidableEq

/-- One row of `SELECT DISTINCT area FROM journal_category`. -/
structure AreaRow where
  area : String
deriving DecidableEq

/-- A cell of the wide table: pandas `NaN`, a scalar string object, or the
list that the aggregation function of `_df_to_wide` produces for a
multi-valued field. -/
inductive Cell where
  | nan
  | str (s : String)
  | lst (l : List String)
deriving DecidableEq

/-- A wide record: ordered (column name, cell) pairs, one per column. -/
abbrev WRow : Type := List (String × Cell)

/-- Label lookup on a wide record, as pandas `row.get(label)`: the first
field carrying the label (duplicate column labels are modelled by the first
match), `none` when the column is absent. -/
def wget (r : WRow) (k : String) : Option Cell :=
  (r.find? (fun kv => kv.1 == k)).map (fun kv => kv.2)

/-- A wide DataFrame: its column labels and its records.  The labels are kept
separately because pandas retains the columns of an empty filtered frame. -/
structure WideDf where
  cols : List String
  rows : List WRow
deriving DecidableEq

/-- Local name of a predicate URI: `str(c).split('/')[-1].split('#')[-1]`
from `BasicQueryEngine._df_to_wide` (both separators are single
characters, hence the char-level split). -/
def localName (p : String) : String :=
  ⟨(splitChar '#' ((splitChar '/' p.data).getLastD [])).getLastD []⟩

/-- Objects of the `(subject, predicate)` group of a long relation, in row
order (the order `pivot_table` feeds the aggregation function). -/
def objectsOf (df : List Row) (s p : String) : List String :=
  (df.filter (fun t => t.subject == s && t.predicate == p)).map Row.object

/-- Aggregation of one `(subject, predicate)` group, from the `agg` closure
of `_df_to_wide`: `pandas.unique` of the objects, a scalar when exactly one
distinct value remains, otherwise the list of distinct values; `NaN` when the
subject has no triple with this predicate. -/
def aggCell (df : List Row) (s p : String) : Cell :=
  match dedupFirst (objectsOf df s p) with
  | [] => Cell.nan
  | [v] => Cell.str v
  | l => Cell.lst l

/-- Distinct predicates of a long relation, sorted as `pivot_table` sorts its
column keys. -/
def predKeys (df : List Row) : List String :=
  sortStr (dedupFirst (df.map Row.predicate))

/-- Distinct subjects of a long relation, sorted as `pivot_table` sorts its
index. -/
def subjectKeys (df : List Row) : List String :=
  sortStr (dedupFirst (df.map Row.subject))

/-- The wide record of one subject: the reset index column `uri` followed by
one field per predicate, renamed to its local name. -/
def mkWRow (df : List Row) (s : String) : WRow :=
  ("uri", Cell.str s) :: (predKeys df).map (fun p => (localName p, aggCell df s p))

/-- Model of `BasicQueryEngine._df_to_wide`: an empty long relation gives the
column-less empty frame `pd.DataFrame()`; otherwise one record per distinct
subject with one column per distinct predicate local name. -/
def dfToWide (df : List Row) : WideDf :=
  if df.isEmpty then ⟨[], []⟩
  else ⟨"uri" :: (predKeys df).map localName, (subjectKeys df).map (mkWRow df)⟩

/-- Column rename on a wide frame, as `DataFrame.rename(columns=...)`. -/
def renameDf (m : String → String) (d : WideDf) : WideDf :=
  ⟨d.cols.map m, d.rows.map (fun r => r.map (fun kv => (m kv.1, kv.2)))⟩

/-- The rename `{'id': 'issn'}` used by the compound queries. -/
def idToIssn (k : String) : String := if k == "id" then "issn" else k

/-- The rename `{'issn': 'id'}` applied after the join. -/
def issnToId (k : String) : String := if k == "issn" then "id" else k

/-- Area entity (`Area(area_id, name)` with `IdentifiableEntity` ids). -/
structure Area where
  ids : List String
  name : String
deriving DecidableEq

/-- Category entity. -/
structure Category where
  ids : List String
  title : String
  quartile : Option String
  area : Option Area
deriving DecidableEq

/-- Publisher entity. -/
structure Publisher where
  ids : List String
  name : String
deriving DecidableEq

/-- Journal entity (the mutable `categories` list is always empty at mapping
time and is omitted). -/
structure Journal where
  ids : List String
  title : Option Cell
  publisher : Option Publisher
  languages : List String
  hasDOAJSeal : Bool
  licence : Option Cell
  hasAPC : Bool
deriving DecidableEq

/-- Result of `BasicQueryEngine.getEntityById`. -/
inductive Entity where
  | journal (j : Journal)
  | category (c : Category)
deriving DecidableEq

/-- Construction of `IdentifiableEntity._ids` from the `id` cell of a wide
record: `[identifier] if isinstance(identifier, str) else list(identifier)`.
`list` of a float `NaN` or of `None` raises `TypeError`. -/
def idsOf : Option Cell → Except PyErr (List String)
  | some (Cell.str s) => .ok [s]
  | some (Cell.lst l) => .ok l
  | some Cell.nan => .error PyErr.typeError
  | none => .error PyErr.typeError

/-- Boolean normalization `str(value).lower() == 'true'` of
`_wide_df_to_journals`: `None` renders as `"none"`, `NaN` as `"nan"`, a list
with brackets, so only a scalar string whose lower-casing is `"true"`
yields `True`. -/
def strTrue : Option Cell → Bool
  | some (Cell.str s) => toLowerStr s == "true"
  | _ => false

/-- Materialization of the `language` cell by `_wide_df_to_journals`:
`row.get('language', [])` then a non-list scalar is wrapped when `notna` and
replaced by `[]` when `NaN`. -/
def langsOf : Option Cell → List String
  | none => []
  | some Cell.nan => []
  | some (Cell.str v) => [v]
  | some (Cell.lst l) => l

/-- The publisher branch of `_wide_df_to_journals`:
`Publisher(p_id=pub_name, name=pub_name) if pub_name and pd.notna(pub_name)
else None`.  A `NaN` is truthy but fails `notna`; an empty string or empty
list is falsy; a non-empty list is truthy and `pd.notna` of it is an array,
whose use in boolean context raises `ValueError`. -/
def pubOf : Option Cell → Except PyErr (Option Publisher)
  | none => .ok none
  | some Cell.nan => .ok none
  | some (Cell.str s) => .ok (if s.isEmpty then none else some ⟨[s], s⟩)
  | some (Cell.lst l) => if l.isEmpty then .ok none else .error PyErr.valueError

/-- Mapping of one wide record to a `Journal` by `_wide_df_to_journals`.
The publisher branch runs first, then the `Journal` constructor converts the
`id` cell into the identifier list. -/
def rowToJournal (r : WRow) : Except PyErr Journal :=
  match pubOf (wget r "publisher") with
  | .error e => .error e
  | .ok pub =>
    match idsOf (wget r "id") with
    | .error e => .error e
    | .ok ids =>
      .ok { ids := ids, title := wget r "title", publisher := pub,
            languages := langsOf (wget r "language"),
            hasDOAJSeal := strTrue (wget r "seal"),
            licence := wget r "license", hasAPC := strTrue (wget r "apc") }

/-- Model of `BasicQueryEngine._wide_df_to_journals` (row loop; the Python
loop raises at the first offending row). -/
def wideToJournals (d : WideDf) : Except PyErr (List Journal) :=
  if d.rows.isEmpty then .ok []
  else exceptMapM rowToJournal d.rows

/-- Mapping of one category row by `BasicQueryEngine._df_to_categories`. -/
def catOfRow (r : CatRow) : Category :=
  ⟨[r.category_id], r.category_id, r.quartile, some ⟨[r.area], r.area⟩⟩

/-- Mapping of one area row by `BasicQueryEngine._df_to_areas`. -/
def areaOfRow (r : AreaRow) : Area := ⟨[r.area], r.area⟩

/-- A registered bibliographic (SPARQL) handler, abstracted by the raw
outcome of each read operation before `_query_to_df` catches failures. -/
structure JHandler where
  getById : String → Except PyErr (List Row)
  getAllJournals : Except PyErr (List Row)

/-- The `try/except` of `JournalQueryHandler._query_to_df` in `src/impl.py`:
any failure is logged and becomes the empty DataFrame. -/
def queryToDf : Except PyErr (List Row) → List Row
  | .ok rows => rows
  | .error _ => []

/-- A registered category-link (SQLite) handler.  Its `_execute_query` has no
`try/except`, so a failing operation propagates its exception. -/
structure CHandler where
  getById : String → Except PyErr (List CatRow)
  getAllCategories : Except PyErr (List CatRow)
  getAllAreas : Except PyErr (List AreaRow)
  getCategoryLinks : Except PyErr (List LinkRow)

/-- The state of `BasicQueryEngine` / `FullQueryEngine`: the two handler
registries. -/
structure Engine where
  journalQuery : List JHandler
  categoryQuery : List CHandler

/-- The concatenate-then-`drop_duplicates` core of
`BasicQueryEngine._get_combined_df`. -/
def getCombinedDf {α : Type} [DecidableEq α] (dfs : List (List α)) : List α :=
  dedupFirst dfs.flatten

/-- Model of `_get_combined_df` over the bibliographic registry.  The
effective per-handler result is total because `_query_to_df` absorbs
failures. -/
def combineJ (hs : List JHandler) (f : JHandler → List Row) : List Row :=
  if hs.isEmpty then [] else getCombinedDf (hs.map f)

/-- Model of `_get_combined_df` over the category registry.  `none` is the
column-less `pd.DataFrame()` returned when no handler is registered; with
handlers present, the first failing handler aborts the whole combine, and on
success the concatenated rows are deduplicated (SQL frames keep their columns
even when empty, hence `some`). -/
def combineC {α : Type} [DecidableEq α] (hs : List CHandler)
    (f : CHandler → Except PyErr (List α)) : Except PyErr (Option (List α)) :=
  if hs.isEmpty then .ok none
  else
    match exceptMapM f hs with
    | .error e => .error e
    | .ok dfs => .ok (some (getCombinedDf dfs))

/-- Combined bibliographic relation behind `getAllJournals`. -/
def getAllJournalsDf (e : Engine) : List Row :=
  combineJ e.journalQuery (fun h => queryToDf h.getAllJournals)

/-- Model of `BasicQueryEngine.getAllJournals`. -/
def engGetAllJournals (e : Engine) : Except PyErr (List Journal) :=
  wideToJournals (dfToWide (getAllJournalsDf e))

/-- Model of `BasicQueryEngine.getAllCategories` (the `iterrows` loop of
`_df_to_categories` yields nothing on the column-less empty frame). -/
def engGetAllCategories (e : Engine) : Except PyErr (List Category) :=
  match combineC e.categoryQuery (fun h => h.getAllCategories) with
  | .error e => .error e
  | .ok df => .ok ((df.getD []).map catOfRow)

/-- Model of `BasicQueryEngine.getAllAreas`.  `_df_to_areas` iterates
`df['area']`, which raises `KeyError` on the column-less frame produced when
no category handler is registered. -/
def engGetAllAreas (e : Engine) : Except PyErr (List Area) :=
  match combineC e.categoryQuery (fun h => h.getAllAreas) with
  | .error e => .error e
  | .ok none => .error (PyErr.keyError "area")
  | .ok (some rows) => .ok (rows.map areaOfRow)

/-- Combined bibliographic relation behind `getEntityById`. -/
def getByIdJDf (e : Engine) (id : String) : List Row :=
  combineJ e.journalQuery (fun h => queryToDf (h.getById id))

/-- Model of `BasicQueryEngine.getEntityById`: bibliographic handlers first,
`[0]` of the mapped journals on a match; else category handlers, `[0]` of the
mapped categories on a match; else `None`. -/
def getEntityById (e : Engine) (id : String) : Except PyErr (Option Entity) :=
  if !(getByIdJDf e id).isEmpty then
    match wideToJournals (dfToWide (getByIdJDf e id)) with
    | .error e => .error e
    | .ok [] => .error PyErr.indexError
    | .ok (j :: _) => .ok (some (Entity.journal j))
  else
    match combineC e.categoryQuery (fun h => h.getById id) with
    | .error e => .error e
    | .ok dcOpt =>
      match dcOpt.getD [] with
      | [] => .ok none
      | r :: _ => .ok (some (Entity.category (catOfRow r)))

/-- Quartile membership filter `target['quartile'].isin(quartiles)`: a SQL
`NULL` quartile (`None`) is never a member of a set of strings. -/
def quartMatch (qs : List String) (c : CatRow) : Bool :=
  match c.quartile with
  | some q => qs.contains q
  | none => false

/-- Category rows surviving the two membership filters of
`getJournalsInCategoriesWithQuartile` (an empty set skips its filter, since
an empty Python set is falsy), projected to their category ids. -/
def targetCatIds (allCats : List CatRow) (cs qs : List String) : List String :=
  let t1 := if cs.isEmpty then allCats else
    allCats.filter (fun c => cs.contains c.category_id)
  let t2 := if qs.isEmpty then t1 else t1.filter (fun c => quartMatch qs c)
  t2.map CatRow.category_id

/-- Link rows surviving `category_links_df[category_links_df['category_id']
.isin(target_category_ids)]`. -/
def survivingLinks (links : List LinkRow) (allCats : List CatRow)
    (cs qs : List String) : List LinkRow :=
  links.filter (fun l => (targetCatIds allCats cs qs).contains l.category_id)

/-- Join key comparison of `pd.merge(..., on='issn')`: a scalar string cell
matches the link's `issn` by equality, a `NaN` key matches nothing. -/
def keyMatch : Option Cell → String → Bool
  | some (Cell.str s), k => s == k
  | _, _ => false

/-- Inner join `pd.merge(journals_df_wide, filtered_links, on='issn')`: one
output record per (journal record, matching link) pair, in left order, the
link contributing its `category_id` column.  A list-valued join key is
unhashable and raises `TypeError`. -/
def mergeLinks (d : WideDf) (links : List LinkRow) : Except PyErr WideDf :=
  if d.rows.any (fun r => match wget r "issn" with
      | some (Cell.lst _) => true
      | _ => false) then
    .error PyErr.typeError
  else
    .ok ⟨d.cols ++ ["category_id"],
      (d.rows.map (fun r =>
        (links.filter (fun l => keyMatch (wget r "issn") l.issn)).map
          (fun l => r ++ [("category_id", Cell.str l.category_id)]))).flatten⟩

/-- The wide bibliographic table of `getJournalsInCategoriesWithQuartile`
after the `{'id': 'issn'}` rename. -/
def jicqWideDf (e : Engine) : WideDf :=
  renameDf idToIssn (dfToWide (getAllJournalsDf e))

/-- Model of `FullQueryEngine.getJournalsInCategoriesWithQuartile`.
When no category handler is registered, `getCategoryLinks` combines to the
column-less empty frame, which is empty, so the query returns `[]` before
any column access; a `some` links frame with a `none` categories frame
cannot occur, so `catsOpt.getD []` stands for the unreachable case. -/
def getJournalsInCategoriesWithQuartile (e : Engine) (cs qs : List String) :
    Except PyErr (List Journal) :=
  if (getAllJournalsDf e).isEmpty then .ok []
  else
    match combineC e.categoryQuery (fun h => h.getCategoryLinks) with
    | .error er => .error er
    | .ok linksOpt =>
      if (linksOpt.getD []).isEmpty then .ok []
      else
        match combineC e.categoryQuery (fun h => h.getAllCategories) with
        | .error er => .error er
        | .ok catsOpt =>
          if !(jicqWideDf e).cols.contains "issn" then .ok []
          else
            match mergeLinks (jicqWideDf e)
                (survivingLinks (linksOpt.getD []) (catsOpt.getD []) cs qs) with
            | .error er => .error er
            | .ok merged => wideToJournals (renameDf issnToId merged)

/-- The licence filter `journals_df_wide[journals_df_wide['license']
.isin(licenses)]`: column access raises `KeyError` when no journal carries a
licence predicate; `isin` hashes every cell, so a list cell raises
`TypeError`; otherwise only scalar cells equal to a requested licence
survive (`NaN` is not a member). -/
def filterLicenseDf (d : WideDf) (lics : List String) : Except PyErr WideDf :=
  if !d.cols.contains "license" then .error (PyErr.keyError "license")
  else if d.rows.any (fun r => match wget r "license" with
      | some (Cell.lst _) => true
      | _ => false) then
    .error PyErr.typeError
  else
    .ok ⟨d.cols, d.rows.filter (fun r => match wget r "license" with
      | some (Cell.str s) => lics.contains s
      | _ => false)⟩

/-- Model of `FullQueryEngine.getJournalsInAreasWithLicense`.  With a `none`
(column-less) categories frame the first column access is
`all_categories_df['area']`, hence `KeyError('area')`. -/
def getJournalsInAreasWithLicense (e : Engine) (areas lics : List String) :
    Except PyErr (List Journal) :=
  if (getAllJournalsDf e).isEmpty then .ok []
  else
    let wide0 := dfToWide (getAllJournalsDf e)
    match (if lics.isEmpty then .ok wide0 else filterLicenseDf wide0 lics) with
    | .error er => .error er
    | .ok wide1 =>
      if areas.isEmpty then wideToJournals wide1
      else
        match combineC e.categoryQuery (fun h => h.getCategoryLinks) with
        | .error er => .error er
        | .ok linksOpt =>
          match combineC e.categoryQuery (fun h => h.getAllCategories) with
          | .error er => .error er
          | .ok none => .error (PyErr.keyError "area")
          | .ok (some allCats) =>
            let targetIds := (allCats.filter (fun c => areas.contains c.area)).map
              CatRow.category_id
            let flinks := (linksOpt.getD []).filter
              (fun l => targetIds.contains l.category_id)
            let wide2 := renameDf idToIssn wide1
            if !wide2.cols.contains "issn" then .ok []
            else
              match mergeLinks wide2 flinks with
              | .error er => .error er
              | .ok merged => wideToJournals (renameDf issnToId merged)

/-- The diamond filter `journals_df_wide['apc'] == False`, element by
element.  Every cell of the object column is a Python string (or `NaN`, or a
list), never the boolean `False`, so the comparison is false for every cell:
`"false" == False` is `False` in Python, `NaN == False` is `False`, and a
list never equals a boolean. -/
def pyEqFalse : Option Cell → Bool
  | some Cell.nan => false
  | some (Cell.str _) => false
  | some (Cell.lst _) => false
  | none => false

/-- The key of the first `KeyError` raised by the diamond query's filter
chain on the column-less categories frame: `area` when the area filter runs,
else `category_id`, else `quartile`, else the final
`set(target['category_id'])`. -/
def diamondKeyChain (areas cs qs : List String) : String :=
  if !areas.isEmpty then "area"
  else if !cs.isEmpty then "category_id"
  else if !qs.isEmpty then "quartile"
  else "category_id"

/-- The "diamond" bibliographic frame: the wide table filtered by
`journals_df_wide['apc'] == False` (columns are retained). -/
def diamondDf (e : Engine) : WideDf :=
  ⟨(dfToWide (getAllJournalsDf e)).cols,
   (dfToWide (getAllJournalsDf e)).rows.filter
     (fun r => pyEqFalse (wget r "apc"))⟩

/-- Category ids surviving the three membership filters of the diamond
query (an empty set skips its filter). -/
def diamondTargetIds (allCats : List CatRow) (areas cs qs : List String) :
    List String :=
  let t1 := if areas.isEmpty then allCats else
    allCats.filter (fun c => areas.contains c.area)
  let t2 := if cs.isEmpty then t1 else
    t1.filter (fun c => cs.contains c.category_id)
  let t3 := if qs.isEmpty then t2 else t2.filter (fun c => quartMatch qs c)
  t3.map CatRow.category_id

/-- Model of
`FullQueryEngine.getDiamondJournalsInAreasAndCategoriesWithQuartile`. -/
def getDiamondJournalsInAreasAndCategoriesWithQuartile (e : Engine)
    (areas cs qs : List String) : Except PyErr (List Journal) :=
  if (getAllJournalsDf e).isEmpty then .ok []
  else
    if !(dfToWide (getAllJournalsDf e)).cols.contains "apc" then
      .error (PyErr.keyError "apc")
    else
      match combineC e.categoryQuery (fun h => h.getCategoryLinks) with
      | .error er => .error er
      | .ok linksOpt =>
        match combineC e.categoryQuery (fun h => h.getAllCategories) with
        | .error er => .error er
        | .ok none => .error (PyErr.keyError (diamondKeyChain areas cs qs))
        | .ok (some allCats) =>
          if !(renameDf idToIssn (diamondDf e)).cols.contains "issn" then
            .ok []
          else
            match mergeLinks (renameDf idToIssn (diamondDf e))
                ((linksOpt.getD []).filter (fun l =>
                  (diamondTargetIds allCats areas cs qs).contains
                    l.category_id)) with
            | .error er => .error er
            | .ok merged => wideToJournals (renameDf issnToId merged)

/-!
Comparison definitions for the filter-union-empty law.  Each follows the
spec's words — "passing an empty set for a given filter axis is equivalent to
omitting that axis's restriction entirely" — by restating the corresponding
query with the named axis's restriction removed from its pipeline.
-/

/-- Specification variant of `getJournalsInCategoriesWithQuartile` with the
category-id restriction omitted entirely. -/
def jicqSpecNoCategoryAxis (e : Engine) (qs : List String) :
    Except PyErr (List Journal) :=
  if (getAllJournalsDf e).isEmpty then .ok []
  else
    match combineC e.categoryQuery (fun h => h.getCategoryLinks) with
    | .error er => .error er
    | .ok linksOpt =>
      let links := linksOpt.getD []
      if links.isEmpty then .ok []
      else
        match combineC e.categoryQuery (fun h => h.getAllCategories) with
        | .error er => .error er
        | .ok catsOpt =>
          let allCats := catsOpt.getD []
          let t2 := if qs.isEmpty then allCats else
            allCats.filter (fun c => quartMatch qs c)
          let flinks := links.filter
            (fun l => (t2.map CatRow.category_id).contains l.category_id)
          let wide := jicqWideDf e
          if !wide.cols.contains "issn" then .ok []
          else
            match mergeLinks wide flinks with
            | .error er => .error er
            | .ok merged => wideToJournals (renameDf issnToId merged)

/-- Specification variant of `getJournalsInCategoriesWithQuartile` with the
quartile restriction omitted entirely. -/
def jicqSpecNoQuartileAxis (e : Engine) (cs : List String) :
    Except PyErr (List Journal) :=
  if (getAllJournalsDf e).isEmpty then .ok []
  else
    match combineC e.categoryQuery (fun h => h.getCategoryLinks) with
    | .error er => .error er
    | .ok linksOpt =>
      let links := linksOpt.getD []
      if links.isEmpty then .ok []
      else
        match combineC e.categoryQuery (fun h => h.getAllCategories) with
        | .error er => .error er
        | .ok catsOpt =>
          let allCats := catsOpt.getD []
          let t1 := if cs.isEmpty then allCats else
            allCats.filter (fun c => cs.contains c.category_id)
          let flinks := links.filter
            (fun l => (t1.map CatRow.category_id).contains l.category_id)
          let wide := jicqWideDf e
          if !wide.cols.contains "issn" then .ok []
          else
            match mergeLinks wide flinks with
            | .error er => .error er
            | .ok merged => wideToJournals (renameDf issnToId merged)

/-- Specification variant of `getJournalsInAreasWithLicense` with the area
restriction omitted entirely: no link join is performed and the
licence-filtered bibliographic set is returned directly. -/
def jialSpecNoAreaAxis (e : Engine) (lics : List String) :
    Except PyErr (List Journal) :=
  if (getAllJournalsDf e).isEmpty then .ok []
  else
    let wide0 := dfToWide (getAllJournalsDf e)
    match (if lics.isEmpty then .ok wide0 else filterLicenseDf wide0 lics) with
    | .error er => .error er
    | .ok wide1 => wideToJournals wide1

/-- Specification variant of `getJournalsInAreasWithLicense` with the licence
restriction omitted entirely. -/
def jialSpecNoLicenceAxis (e : Engine) (areas : List String) :
    Except PyErr (List Journal) :=
  if (getAllJournalsDf e).isEmpty then .ok []
  else
    let wide1 := dfToWide (getAllJournalsDf e)
    if areas.isEmpty then wideToJournals wide1
    else
      match combineC e.categoryQuery (fun h => h.getCategoryLinks) with
      | .error er => .error er
      | .ok linksOpt =>
        match combineC e.categoryQuery (fun h => h.getAllCategories) with
        | .error er => .error er
        | .ok none => .error (PyErr.keyError "area")
        | .ok (some allCats) =>
          let targetIds := (allCats.filter (fun c => areas.contains c.area)).map
            CatRow.category_id
          let flinks := (linksOpt.getD []).filter
            (fun l => targetIds.contains l.category_id)
          let wide2 := renameDf idToIssn wide1
          if !wide2.cols.contains "issn" then .ok []
          else
            match mergeLinks wide2 flinks with
            | .error er => .error er
            | .ok merged => wideToJournals (renameDf issnToId merged)

/-- Specification variant of the diamond query with the area restriction
omitted entirely. -/
def diamondSpecNoAreaAxis (e : Engine) (cs qs : List String) :
    Except PyErr (List Journal) :=
  if (getAllJournalsDf e).isEmpty then .ok []
  else
    let wide := dfToWide (getAllJournalsDf e)
    if !wide.cols.contains "apc" then .error (PyErr.keyError "apc")
    else
      let diamond : WideDf := ⟨wide.cols,
        wide.rows.filter (fun r => pyEqFalse (wget r "apc"))⟩
      match combineC e.categoryQuery (fun h => h.getCategoryLinks) with
      | .error er => .error er
      | .ok linksOpt =>
        match combineC e.categoryQuery (fun h => h.getAllCategories) with
        | .error er => .error er
        | .ok none => .error (PyErr.keyError (if !cs.isEmpty then "category_id"
            else if !qs.isEmpty then "quartile" else "category_id"))
        | .ok (some allCats) =>
          let t2 := if cs.isEmpty then allCats else
            allCats.filter (fun c => cs.contains c.category_id)
          let t3 := if qs.isEmpty then t2 else t2.filter (fun c => quartMatch qs c)
          let targetIds := t3.map CatRow.category_id
          let flinks := (linksOpt.getD []).filter
            (fun l => targetIds.contains l.category_id)
          let d2 := renameDf idToIssn diamond
          if !d2.cols.contains "issn" then .ok []
          else
            match mergeLinks d2 flinks with
            | .error er => .error er
            | .ok merged => wideToJournals (renameDf issnToId merged)

/-- Specification variant of the diamond query with the category-id
restriction omitted entirely. -/
def diamondSpecNoCategoryAxis (e : Engine) (areas qs : List String) :
    Except PyErr (List Journal) :=
  if (getAllJournalsDf e).isEmpty then .ok []
  else
    let wide := dfToWide (getAllJournalsDf e)
    if !wide.cols.contains "apc" then .error (PyErr.keyError "apc")
    else
      let diamond : WideDf := ⟨wide.cols,
        wide.rows.filter (fun r => pyEqFalse (wget r "apc"))⟩
      match combineC e.categoryQuery (fun h => h.getCategoryLinks) with
      | .error er => .error er
      | .ok linksOpt =>
        match combineC e.categoryQuery (fun h => h.getAllCategories) with
        | .error er => .error er
        | .ok none => .error (PyErr.keyError (if !areas.isEmpty then "area"
            else if !qs.isEmpty then "quartile" else "category_id"))
        | .ok (some allCats) =>
          let t1 := if areas.isEmpty then allCats else
            allCats.filter (fun c => areas.contains c.area)
          let t3 := if qs.isEmpty then t1 else t1.filter (fun c => quartMatch qs c)
          let targetIds := t3.map CatRow.category_id
          let flinks := (linksOpt.getD []).filter
            (fun l => targetIds.contains l.category_id)
          let d2 := renameDf idToIssn diamond
          if !d2.cols.contains "issn" then .ok []
          else
            match mergeLinks d2 flinks with
            | .error er => .error er
            | .ok merged => wideToJournals (renameDf issnToId merged)

/-- Specification variant of the diamond query with the quartile restriction
omitted entirely. -/
def diamondSpecNoQuartileAxis (e : Engine) (areas cs : List String) :
    Except PyErr (List Journal) :=
  if (getAllJournalsDf e).isEmpty then .ok []
  else
    let wide := dfToWide (getAllJournalsDf e)
    if !wide.cols.contains "apc" then .error (PyErr.keyError "apc")
    else
      let diamond : WideDf := ⟨wide.cols,
        wide.rows.filter (fun r => pyEqFalse (wget r "apc"))⟩
      match combineC e.categoryQuery (fun h => h.getCategoryLinks) with
      | .error er => .error er
      | .ok linksOpt =>
        match combineC e.categoryQuery (fun h => h.getAllCategories) with
        | .error er => .error er
        | .ok none => .error (PyErr.keyError (if !areas.isEmpty then "area"
            else if !cs.isEmpty then "category_id" else "category_id"))
        | .ok (some allCats) =>
          let t1 := if areas.isEmpty then allCats else
            allCats.filter (fun c => areas.contains c.area)
          let t2 := if cs.isEmpty then t1 else
            t1.filter (fun c => cs.contains c.category_id)
          let targetIds := t2.map CatRow.category_id
          let flinks := (linksOpt.getD []).filter
            (fun l => targetIds.contains l.category_id)
          let d2 := renameDf idToIssn diamond
          if !d2.cols.contains "issn" then .ok []
          else
            match mergeLinks d2 flinks with
            | .error er => .error er
            | .ok merged => wideToJournals (renameDf issnToId merged)

/-!
Store-level models of the bibliographic fragment searches, for the licence
search semantics.  A SPARQL pattern `?s PRED ?x . FILTER(...) . ?s ?p ?o`
returns every triple of each subject carrying a matching value; the result
multiset's duplicate rows collapse under the engine's `drop_duplicates`, so
the store queries are modelled as triple filters.
-/

/-- Prefix test on character lists (needle first). -/
def leadsChars : List Char → List Char → Bool
  | [], _ => true
  | _ :: _, [] => false
  | a :: l, b :: m => a == b && leadsChars l m

/-- Substring occurrence test on character lists (needle first). -/
def occursChars (n : List Char) : List Char → Bool
  | [] => n.isEmpty
  | b :: m => leadsChars n (b :: m) || occursChars n m

/-- Case-insensitive substring test, as `CONTAINS(LCASE(a), LCASE(b))`. -/
def containsCI (hay needle : String) : Bool :=
  occursChars (toLowerStr needle).data (toLowerStr hay).data

/-- The licence predicate written by `JournalUploadHandler` in
`src/impl.py`. -/
def implLicensePred : String := "http://application.org/license"

/-- The licence predicate written by `JournalUploadHandler` in
`src/Handler.py`. -/
def handlerLicencePred : String := "http://example.org/journal/licence"

/-- The title predicate of `src/impl.py`. -/
def implTitlePred : String := "http://application.org/title"

/-- Model of `JournalQueryHandler.getJournalsWithLicense` in `src/impl.py`:
`FILTER(STR(?lic) = "...")`, exact, case-sensitive equality. -/
def implGetJournalsWithLicense (store : List Row) (text : String) : List Row :=
  store.filter (fun t => store.any (fun u =>
    u.subject == t.subject && u.predicate == implLicensePred && u.object == text))

/-- Model of `JournalQueryHandler.getJournalsWithLicense` in
`src/Handler.py`: `FILTER(CONTAINS(LCASE(STR(?licence)), LCASE("...")))`,
case-insensitive substring. -/
def handlerGetJournalsWithLicense (store : List Row) (text : String) :
    List Row :=
  store.filter (fun t => store.any (fun u =>
    u.subject == t.subject && u.predicate == handlerLicencePred &&
      containsCI u.object text))

/-- Model of `JournalQueryHandler.getJournalsWithTitle` in `src/impl.py`:
`FILTER(CONTAINS(LCASE(STR(?title)), LCASE("...")))`. -/
def implGetJournalsWithTitle (store : List Row) (text : String) : List Row :=
  store.filter (fun t => store.any (fun u =>
    u.subject == t.subject && u.predicate == implTitlePred &&
      containsCI u.object text))

instance {ε α : Type} [DecidableEq ε] [DecidableEq α] :
    DecidableEq (Except ε α) := fun a b =>
  match a, b with
  | .ok x, .ok y => decidable_of_iff (x = y) (by simp)
  | .error x, .error y => decidable_of_iff (x = y) (by simp)
  | .ok _, .error _ => isFalse (by simp)
  | .error _, .ok _ => isFalse (by simp)

/-!
Concrete fixtures used by the closed theorems: a bibliographic store holding
the single diamond journal of the spec's scenario (`apc = "false"`, category
"Botany", quartile "Q3", area "Plant Science") and small handler variants.
-/

/-- Long bibliographic relation of the fixture journal. -/
def jrowsFix : List Row :=
  [⟨"u/J1", "b/id", "1234-5678"⟩, ⟨"u/J1", "b/title", "Botanical Review"⟩,
   ⟨"u/J1", "b/apc", "false"⟩, ⟨"u/J1", "b/license", "CC BY"⟩]

/-- Fixture bibliographic handler. -/
def jhFix : JHandler :=
  { getById := fun i => if i == "1234-5678" then .ok jrowsFix else .ok [],
    getAllJournals := .ok jrowsFix }

/-- Fixture category handler. -/
def chFix : CHandler :=
  { getById := fun i =>
      if i == "Botany" then .ok [⟨"Botany", some "Q3", "Plant Science"⟩]
      else .ok [],
    getAllCategories := .ok [⟨"Botany", some "Q3", "Plant Science"⟩],
    getAllAreas := .ok [⟨"Plant Science"⟩],
    getCategoryLinks := .ok [⟨"1234-5678", "Botany"⟩] }

/-- Category handler whose store holds no rows at all. -/
def chZero : CHandler :=
  { getById := fun _ => .ok [], getAllCategories := .ok [],
    getAllAreas := .ok [], getCategoryLinks := .ok [] }

/-- Fixture engine registering the two fixture handlers. -/
def eFix : Engine := ⟨[jhFix], [chFix]⟩

/-- The Journal entity that the fixture bibliographic record maps to. -/
def jFix : Journal :=
  { ids := ["1234-5678"], title := some (Cell.str "Botanical Review"),
    publisher := none, languages := [], hasDOAJSeal := false,
    licence := some (Cell.str "CC BY"), hasAPC := false }

/-!
General lemmas about the list primitives of the embedding.
-/

theorem mem_dedupFirst {α : Type} [DecidableEq α] {x : α} {l : List α} :
    x ∈ dedupFirst l ↔ x ∈ l := by
  induction l with
  | nil => simp [dedupFirst]
  | cons a t ih =>
    simp only [dedupFirst, List.mem_cons, List.mem_filter, ih,
      decide_eq_true_eq]
    by_cases hx : x = a
    · simp [hx]
    · simp [hx]

theorem nodup_dedupFirst {α : Type} [DecidableEq α] (l : List α) :
    (dedupFirst l).Nodup := by
  induction l with
  | nil => simp [dedupFirst]
  | cons a t ih =>
    refine List.nodup_cons.2 ⟨?_, List.Nodup.filter _ ih⟩
    intro hmem
    rcases List.mem_filter.1 hmem with ⟨-, hne⟩
    simp at hne

theorem dedupFirst_sublist {α : Type} [DecidableEq α] (l : List α) :
    (dedupFirst l).Sublist l := by
  induction l with
  | nil => simp [dedupFirst]
  | cons a t ih =>
    exact ((List.filter_sublist _).trans ih).cons₂ a

theorem dedupFirst_eq_singleton {α : Type} [DecidableEq α] {l : List α}
    {v : α} (hne : l ≠ []) (hall : ∀ x ∈ l, x = v) : dedupFirst l = [v] := by
  cases l with
  | nil => exact absurd rfl hne
  | cons a t =>
    have ha : a = v := hall a (List.mem_cons_self a t)
    have hfil : (dedupFirst t).filter (fun x => x ≠ a) = [] := by
      refine List.filter_eq_nil_iff.2 (fun x hx => ?_)
      have hxv : x = v := hall x (List.mem_cons_of_mem _ (mem_dedupFirst.1 hx))
      simp [hxv, ha]
    show dedupFirst (a :: t) = [v]
    simp only [dedupFirst]
    rw [hfil, ha]

theorem dedupFirst_filter {α : Type} [DecidableEq α] (p : α → Bool)
    (l : List α) : dedupFirst (l.filter p) = (dedupFirst l).filter p := by
  induction l with
  | nil => simp [dedupFirst]
  | cons a t ih =>
    by_cases hp : p a
    · rw [List.filter_cons_of_pos hp]
      show dedupFirst (a :: t.filter p)
        = (a :: (dedupFirst t).filter (fun x => x ≠ a)).filter p
      rw [List.filter_cons_of_pos hp]
      simp only [dedupFirst]
      rw [ih, List.filter_comm]
    · rw [List.filter_cons_of_neg hp]
      show dedupFirst (t.filter p)
        = (a :: (dedupFirst t).filter (fun x => x ≠ a)).filter p
      rw [List.filter_cons_of_neg hp, ih, List.filter_comm]
      refine (List.filter_eq_self.2 (fun x hx => ?_)).symm
      rcases List.mem_filter.1 hx with ⟨-, hpx⟩
      have : x ≠ a := fun he => hp (he ▸ hpx)
      simpa using this

theorem dedupFirst_append_self {α : Type} [DecidableEq α] (l : List α) :
    dedupFirst (l ++ l) = dedupFirst l := by
  have H : ∀ (n : ℕ) (l : List α), l.length ≤ n →
      dedupFirst (l ++ l) = dedupFirst l := by
    intro n
    induction n with
    | zero =>
      intro l hl
      have hnil : l = [] := List.length_eq_zero.1 (Nat.le_zero.1 hl)
      simp [hnil]
    | succ n ih =>
      intro l hl
      cases l with
      | nil => simp
      | cons a t =>
        show dedupFirst (a :: (t ++ a :: t)) = dedupFirst (a :: t)
        simp only [dedupFirst]
        congr 1
        rw [← dedupFirst_filter, ← dedupFirst_filter, List.filter_append,
          List.filter_cons_of_neg (by simp)]
        exact ih (t.filter _) (le_trans (List.length_filter_le _ _)
          (Nat.lt_succ_iff.1 (Nat.lt_of_lt_of_le (Nat.lt_succ_self _) hl)))
  exact H l.length l (Nat.le_refl _)

/-- Whether a fallible computation succeeded with a value satisfying `p`. -/
def okSat {ε β : Type} (p : β → Bool) : Except ε β → Bool
  | .ok b => p b
  | .error _ => false

theorem exceptMapM_ok_countP {ε α β : Type} {f : α → Except ε β}
    {l : List α} {bs : List β} (h : exceptMapM f l = .ok bs) (p : β → Bool) :
    bs.countP p = l.countP (fun a => okSat p (f a)) := by
  induction l generalizing bs with
  | nil =>
    simp only [exceptMapM, Except.ok.injEq] at h
    subst h
    simp
  | cons a t ih =>
    simp only [exceptMapM] at h
    cases hfa : f a with
    | error e => rw [hfa] at h; cases h
    | ok b =>
      rw [hfa] at h
      cases hmt : exceptMapM f t with
      | error e => rw [hmt] at h; cases h
      | ok bs' =>
        rw [hmt] at h
        simp only [Except.ok.injEq] at h
        subst h
        simp [List.countP_cons, ih hmt, hfa, okSat, Nat.add_comm]

theorem exceptMapM_ok_forall {ε α β : Type} {f : α → Except ε β}
    {l : List α} {bs : List β} (h : exceptMapM f l = .ok bs) :
    ∀ a ∈ l, ∃ b, f a = .ok b := by
  induction l generalizing bs with
  | nil => intro a ha; cases ha
  | cons a t ih =>
    simp only [exceptMapM] at h
    cases hfa : f a with
    | error e => rw [hfa] at h; cases h
    | ok b =>
      rw [hfa] at h
      cases hmt : exceptMapM f t with
      | error e => rw [hmt] at h; cases h
      | ok bs' =>
        intro x hx
        rcases List.mem_cons.1 hx with hxa | hxt
        · exact ⟨b, hxa ▸ hfa⟩
        · exact ih hmt x hxt

theorem sum_map_ite {α : Type} (p : α → Bool) (n : ℕ) (l : List α) :
    (l.map (fun a => if p a then n else 0)).sum = l.countP p * n := by
  induction l with
  | nil => simp
  | cons a t ih =>
    by_cases hp : p a <;>
      simp [hp, ih, List.countP_cons, Nat.add_mul, Nat.add_comm]

theorem leadsChars_iff (n h : List Char) : leadsChars n h = true ↔ n <+: h := by
  induction n generalizing h with
  | nil => simp [leadsChars, List.nil_prefix]
  | cons a l ih =>
    cases h with
    | nil => simp [leadsChars, List.prefix_nil]
    | cons b m =>
      simp [leadsChars, List.cons_prefix_cons, ih, Bool.and_eq_true,
        beq_iff_eq]

theorem occursChars_iff (n h : List Char) :
    occursChars n h = true ↔ n <:+: h := by
  induction h with
  | nil => simp [occursChars, List.isEmpty_iff, List.infix_nil]
  | cons b m ih =>
    simp [occursChars, List.infix_cons_iff, leadsChars_iff, ih,
      Bool.or_eq_true]

theorem containsCI_iff (hay needle : String) :
    containsCI hay needle = true ↔
      (toLowerStr needle).data <:+: (toLowerStr hay).data :=
  occursChars_iff _ _

/-- C8 (licence search, failing case): the `src/impl.py` licence search uses
exact string equality, so a store whose only journal's licence merely
contains the requested text as a case-insensitive substring yields no row,
although the substring convention the claim asserts does match it. -/
theorem C8_counterexample_exact_match_only :
    implGetJournalsWithLicense [⟨"u/J1", implLicensePred, "CC BY-NC 4.0"⟩]
      "cc by" = []
  ∧ containsCI "CC BY-NC 4.0" "cc by" = true :=
  ⟨by decide, by decide⟩

/-- C8 (amended): `getJournalsWithLicense` of `src/impl.py` returns exactly
the triples of subjects holding a licence equal to the requested text
(case-sensitive), while the `src/Handler.py` licence search and the
`src/impl.py` title search use the case-insensitive substring convention. -/
theorem C8_amended_license_semantics :
    (∀ (store : List Row) (text : String) (t : Row),
      t ∈ implGetJournalsWithLicense store text ↔
        t ∈ store ∧ ∃ u ∈ store, u.subject = t.subject ∧
          u.predicate = implLicensePred ∧ u.object = text)
  ∧ (∀ (store : List Row) (text : String) (t : Row),
      t ∈ handlerGetJournalsWithLicense store text ↔
        t ∈ store ∧ ∃ u ∈ store, u.subject = t.subject ∧
          u.predicate = handlerLicencePred ∧
          (toLowerStr text).data <:+: (toLowerStr u.object).data)
  ∧ (∀ (store : List Row) (text : String) (t : Row),
      t ∈ implGetJournalsWithTitle store text ↔
        t ∈ store ∧ ∃ u ∈ store, u.subject = t.subject ∧
          u.predicate = implTitlePred ∧
          (toLowerStr text).data <:+: (toLowerStr u.object).data) := by
  refine ⟨?_, ?_, ?_⟩ <;> intro store text t <;>
    simp [implGetJournalsWithLicense, handlerGetJournalsWithLicense,
      implGetJournalsWithTitle, List.mem_filter, List.any_eq_true,
      containsCI_iff, Bool.and_eq_true, beq_iff_eq, and_assoc]

/-- C5 (filter-union-empty law): for each of the three compound queries and
each of its filter axes, passing the empty set for that axis returns exactly
what the query restated without that axis's restriction returns, on every
engine state. -/
theorem C5_filter_union_empty :
    (∀ (e : Engine) (qs : List String),
      getJournalsInCategoriesWithQuartile e [] qs = jicqSpecNoCategoryAxis e qs)
  ∧ (∀ (e : Engine) (cs : List String),
      getJournalsInCategoriesWithQuartile e cs [] = jicqSpecNoQuartileAxis e cs)
  ∧ (∀ (e : Engine) (lics : List String),
      getJournalsInAreasWithLicense e [] lics = jialSpecNoAreaAxis e lics)
  ∧ (∀ (e : Engine) (areas : List String),
      getJournalsInAreasWithLicense e areas [] = jialSpecNoLicenceAxis e areas)
  ∧ (∀ (e : Engine) (cs qs : List String),
      getDiamondJournalsInAreasAndCategoriesWithQuartile e [] cs qs
        = diamondSpecNoAreaAxis e cs qs)
  ∧ (∀ (e : Engine) (areas qs : List String),
      getDiamondJournalsInAreasAndCategoriesWithQuartile e areas [] qs
        = diamondSpecNoCategoryAxis e areas qs)
  ∧ (∀ (e : Engine) (areas cs : List String),
      getDiamondJournalsInAreasAndCategoriesWithQuartile e areas cs []
        = diamondSpecNoQuartileAxis e areas cs) :=
  ⟨fun _ _ => rfl, fun _ _ => rfl, fun _ _ => rfl, fun _ _ => rfl,
   fun _ _ _ => rfl, fun _ _ _ => rfl, fun _ _ _ => rfl⟩

/-- C9 (no-results totality, failing case): with no category handler
registered, `getAllAreas` raises `KeyError('area')` — `_df_to_areas`
subscripts the column-less combined frame — instead of returning the empty
sequence; with a registered handler owning zero rows it does return `[]`. -/
theorem C9_getAllAreas_raises_on_empty_registry :
    engGetAllAreas ⟨[], []⟩ = .error (PyErr.keyError "area")
  ∧ engGetAllAreas ⟨[], [chZero]⟩ = .ok [] :=
  ⟨rfl, by decide⟩

/-- Unconditional form of the bibliographic combine: the registry-emptiness
branch of `_get_combined_df` coincides with concatenation over no frames. -/
theorem combineJ_eq (hs : List JHandler) (f : JHandler → List Row) :
    combineJ hs f = dedupFirst (hs.map f).flatten := by
  cases hs <;> simp [combineJ, getCombinedDf, dedupFirst]

/-- A bibliographic handler whose backend fails on every operation. -/
def jhBad : JHandler :=
  { getById := fun _ => .error PyErr.backend,
    getAllJournals := .error PyErr.backend }

/-- A category handler whose backend fails on every operation. -/
def chBad : CHandler :=
  { getById := fun _ => .error PyErr.backend,
    getAllCategories := .error PyErr.backend,
    getAllAreas := .error PyErr.backend,
    getCategoryLinks := .error PyErr.backend }

/-- C4 (merge-dedup law): a second handler returning the identical relation
changes nothing — `getAllJournals` and `getAllCategories` over the doubled
registry equal the single-handler results, and on any relation the
concatenate-then-`drop_duplicates` combine collapses the duplicate copy. -/
theorem C4_merge_dedup (h1 h2 : JHandler) (c1 c2 : CHandler)
    (js : List JHandler) (cs : List CHandler)
    (hj : h2.getAllJournals = h1.getAllJournals)
    (hc : c2.getAllCategories = c1.getAllCategories) :
    engGetAllJournals ⟨[h1, h2], cs⟩ = engGetAllJournals ⟨[h1], cs⟩
  ∧ engGetAllCategories ⟨js, [c1, c2]⟩ = engGetAllCategories ⟨js, [c1]⟩
  ∧ (∀ (l : List Row), getCombinedDf [l, l] = getCombinedDf [l])
  ∧ (∀ (l : List LinkRow), getCombinedDf [l, l] = getCombinedDf [l]) := by
  refine ⟨?_, ?_, ?_, ?_⟩
  · unfold engGetAllJournals getAllJournalsDf
    rw [combineJ_eq, combineJ_eq]
    simp [hj, dedupFirst_append_self]
  · unfold engGetAllCategories
    have hcomb : combineC [c1, c2] (fun h => h.getAllCategories)
        = combineC [c1] (fun h => h.getAllCategories) := by
      cases hfc : c1.getAllCategories with
      | error e => simp [combineC, exceptMapM, hc, hfc]
      | ok l =>
        simp [combineC, exceptMapM, hc, hfc, getCombinedDf,
          dedupFirst_append_self]
    rw [hcomb]
  · intro l; simp [getCombinedDf, dedupFirst_append_self]
  · intro l; simp [getCombinedDf, dedupFirst_append_self]

/-- Witness for C4 at the fixture handlers. -/
theorem C4_witness :
    engGetAllJournals ⟨[jhFix, jhFix], []⟩ = engGetAllJournals ⟨[jhFix], []⟩
  ∧ engGetAllCategories ⟨[], [chFix, chFix]⟩
      = engGetAllCategories ⟨[], [chFix]⟩ :=
  ⟨(C4_merge_dedup jhFix jhFix chFix chFix [] [] rfl rfl).1,
   (C4_merge_dedup jhFix jhFix chFix chFix [] [] rfl rfl).2.1⟩

/-- C3 (partial failure, failing case): with a healthy and a failing
category-link handler registered, `getAllCategories` propagates the
backend failure instead of returning the healthy handler's rows, which the
engine does return when the failing handler is absent. -/
theorem C3_counterexample_category_failure_aborts :
    engGetAllCategories ⟨[], [chFix, chBad]⟩ = .error PyErr.backend
  ∧ engGetAllCategories ⟨[], [chFix]⟩
      = .ok [catOfRow ⟨"Botany", some "Q3", "Plant Science"⟩] :=
  ⟨by decide, by decide⟩

/-- C3 (amended): the partial-result policy holds on the bibliographic side —
a failing SPARQL handler is caught by `_query_to_df` and contributes zero
rows while the query continues — but a failing category-link handler's
exception propagates out of `_get_combined_df` and aborts the query. -/
theorem C3_amended_partial_failure
    (hs1 hs2 : List JHandler) (bad : JHandler) (cs : List CHandler)
    (js : List JHandler) (cs1 cs2 : List CHandler) (cbad : CHandler)
    (er er2 : PyErr)
    (hbad : bad.getAllJournals = .error er)
    (hok : ∀ c ∈ cs1, ∃ l, c.getAllCategories = .ok l)
    (hcbad : cbad.getAllCategories = .error er2) :
    engGetAllJournals ⟨hs1 ++ bad :: hs2, cs⟩
      = engGetAllJournals ⟨hs1 ++ hs2, cs⟩
  ∧ engGetAllCategories ⟨js, cs1 ++ cbad :: cs2⟩ = .error er2 := by
  constructor
  · unfold engGetAllJournals getAllJournalsDf
    rw [combineJ_eq, combineJ_eq]
    simp [hbad, queryToDf]
  · unfold engGetAllCategories
    have hmap : exceptMapM (fun h => h.getAllCategories) (cs1 ++ cbad :: cs2)
        = .error er2 := by
      induction cs1 with
      | nil => simp [exceptMapM, hcbad]
      | cons c t ih =>
        rcases hok c (List.mem_cons_self c t) with ⟨l, hl⟩
        have ht := ih (fun x hx => hok x (List.mem_cons_of_mem _ hx))
        simp [exceptMapM, hl, ht]
    simp [combineC, hmap]

/-- Witness for C3's amended statement at the fixture handlers. -/
theorem C3_witness_partial_failure :
    engGetAllJournals ⟨[jhBad, jhFix], []⟩ = engGetAllJournals ⟨[jhFix], []⟩
  ∧ engGetAllCategories ⟨[], [chFix, chBad]⟩ = .error PyErr.backend :=
  ⟨(C3_amended_partial_failure [] [jhFix] jhBad [] [] [] [] chBad
      PyErr.backend PyErr.backend rfl (by intro c hc; cases hc) rfl).1,
   (C3_amended_partial_failure [] [] jhBad [] [] [chFix] [] chBad
      PyErr.backend PyErr.backend rfl
      (by
        intro c hc
        rw [List.mem_singleton] at hc
        subst hc
        exact ⟨_, rfl⟩) rfl).2⟩

theorem mem_insertAsc {x a : String} {l : List String} :
    x ∈ insertAsc a l ↔ x = a ∨ x ∈ l := by
  induction l with
  | nil => simp [insertAsc]
  | cons b t ih =>
    by_cases h : strLe a b
    · simp [insertAsc, h]
    · simp [insertAsc, h, ih]
      tauto

theorem mem_sortStr {x : String} {l : List String} :
    x ∈ sortStr l ↔ x ∈ l := by
  induction l with
  | nil => simp [sortStr]
  | cons a t ih => simp [sortStr, mem_insertAsc, ih]

theorem mem_predKeys {p : String} {df : List Row} :
    p ∈ predKeys df ↔ p ∈ df.map Row.predicate := by
  simp [predKeys, mem_sortStr, mem_dedupFirst]

/-- Lookup of a non-matching label steps over the head field. -/
theorem wget_cons_of_ne {k k' : String} (h : k' ≠ k) (c : Cell) (r : WRow) :
    wget ((k', c) :: r) k = wget r k := by
  simp [wget, List.find?_cons, beq_eq_false_iff_ne.2 h]

theorem wget_cons_self (k : String) (c : Cell) (r : WRow) :
    wget ((k, c) :: r) k = some c := by
  simp [wget, List.find?_cons]

theorem wget_mkWRow_uri (df : List Row) (s : String) :
    wget (mkWRow df s) "uri" = some (Cell.str s) :=
  wget_cons_self _ _ _

/-- A label carried by exactly one predicate of the column list looks up that
predicate's aggregated cell. -/
theorem find_map_localName (g : String → Cell) (F p : String)
    (ps : List String) (hp : p ∈ ps) (hF : localName p = F)
    (huniq : ∀ q ∈ ps, localName q = F → q = p) :
    wget (ps.map (fun q => (localName q, g q))) F = some (g p) := by
  induction ps with
  | nil => cases hp
  | cons q t ih =>
    by_cases hq : localName q = F
    · have hqp : q = p := huniq q (List.mem_cons_self q t) hq
      subst hqp
      simp [wget, List.find?_cons, hq]
    · have hp' : p ∈ t := by
        rcases List.mem_cons.1 hp with h1 | h1
        · exact absurd (h1 ▸ hF) (h1 ▸ hq)
        · exact h1
      have step : wget (((localName q, g q)) ::
          t.map (fun q => (localName q, g q))) F
          = wget (t.map (fun q => (localName q, g q))) F :=
        wget_cons_of_ne hq _ _
      rw [List.map_cons, step]
      exact ih hp' (fun x hx hne => huniq x (List.mem_cons_of_mem _ hx) hne)

theorem wget_mkWRow (df : List Row) (s F p : String)
    (hF : localName p = F) (hFuri : F ≠ "uri") (hp : p ∈ predKeys df)
    (huniq : ∀ q ∈ predKeys df, localName q = F → q = p) :
    wget (mkWRow df s) F = some (aggCell df s p) := by
  unfold mkWRow
  rw [wget_cons_of_ne (Ne.symm hFuri)]
  exact find_map_localName (aggCell df s) F p _ hp hF huniq

theorem mem_dfToWide_rows {df : List Row} {r : WRow}
    (hr : r ∈ (dfToWide df).rows) :
    ∃ s, s ∈ subjectKeys df ∧ r = mkWRow df s := by
  unfold dfToWide at hr
  by_cases h : df.isEmpty
  · rw [if_pos h] at hr; cases hr
  · rw [if_neg h] at hr
    rcases List.mem_map.1 hr with ⟨s, hs, hrs⟩
    exact ⟨s, hs, hrs.symm⟩

theorem pred_mem_of_objectsOf {df : List Row} {s p x : String}
    (hx : x ∈ objectsOf df s p) : p ∈ df.map Row.predicate := by
  unfold objectsOf at hx
  rcases List.mem_map.1 hx with ⟨t, ht, -⟩
  rcases List.mem_filter.1 ht with ⟨htdf, hcond⟩
  rw [Bool.and_eq_true] at hcond
  exact List.mem_map.2 ⟨t, htdf, beq_iff_eq.1 hcond.2⟩

theorem aggCell_of_all_eq {df : List Row} {s p v : String}
    (hne : objectsOf df s p ≠ []) (hall : ∀ x ∈ objectsOf df s p, x = v) :
    aggCell df s p = Cell.str v := by
  unfold aggCell
  rw [dedupFirst_eq_singleton hne hall]

theorem aggCell_of_two_distinct {df : List Row} {s p : String} {x y : String}
    (hx : x ∈ objectsOf df s p) (hy : y ∈ objectsOf df s p) (hxy : x ≠ y) :
    aggCell df s p = Cell.lst (dedupFirst (objectsOf df s p)) := by
  unfold aggCell
  have hx' := mem_dedupFirst.2 hx
  have hy' := mem_dedupFirst.2 hy
  cases hd : dedupFirst (objectsOf df s p) with
  | nil => rw [hd] at hx'; cases hx'
  | cons a t =>
    cases t with
    | nil =>
      rw [hd] at hx' hy'
      rw [List.mem_singleton] at hx' hy'
      exact absurd (hx'.trans hy'.symm) hxy
    | cons b u => rfl

/-- C1 (amended cardinality law): for a subject's field whose local name `F`
comes from the single predicate `p`, the normalizer stores the scalar `v`
when all of the subject's objects for `p` equal `v` (in particular when there
is exactly one triple), and when at least two distinct objects occur it
stores the sequence of the distinct values — without duplicates — in
first-occurrence order (a nodup sublist of the object list with the same
members). -/
theorem C1_amended_cardinality (df : List Row) (p F : String) (r : WRow)
    (s : String) (hr : r ∈ (dfToWide df).rows)
    (huri : wget r "uri" = some (Cell.str s))
    (hFp : localName p = F) (hFuri : F ≠ "uri")
    (huniq : ∀ t ∈ df, localName t.predicate = F → t.predicate = p) :
    (∀ v, objectsOf df s p ≠ [] → (∀ x ∈ objectsOf df s p, x = v) →
      wget r F = some (Cell.str v))
  ∧ (∀ x y, x ∈ objectsOf df s p → y ∈ objectsOf df s p → x ≠ y →
      ∃ l, wget r F = some (Cell.lst l) ∧ l.Nodup ∧
        l.Sublist (objectsOf df s p) ∧
        (∀ z, z ∈ l ↔ z ∈ objectsOf df s p)) := by
  obtain ⟨s', hs'mem, hreq⟩ := mem_dfToWide_rows hr
  subst hreq
  have hs : s' = s := by
    have huri' := wget_mkWRow_uri df s'
    rw [huri] at huri'
    exact (Cell.str.inj (Option.some.inj huri')).symm
  subst hs
  have huniqK : ∀ q ∈ predKeys df, localName q = F → q = p := by
    intro q hq hlq
    rcases List.mem_map.1 (mem_predKeys.1 hq) with ⟨t, htdf, hteq⟩
    exact hteq ▸ huniq t htdf (hteq.symm ▸ hlq)
  constructor
  · intro v hne hall
    rcases List.exists_mem_of_ne_nil _ hne with ⟨x, hx⟩
    have hpK : p ∈ predKeys df :=
      mem_predKeys.2 (pred_mem_of_objectsOf hx)
    rw [wget_mkWRow df s' F p hFp hFuri hpK huniqK,
      aggCell_of_all_eq hne hall]
  · intro x y hx hy hxy
    have hpK : p ∈ predKeys df :=
      mem_predKeys.2 (pred_mem_of_objectsOf hx)
    refine ⟨dedupFirst (objectsOf df s' p), ?_, nodup_dedupFirst _,
      dedupFirst_sublist _, fun z => mem_dedupFirst⟩
    rw [wget_mkWRow df s' F p hFp hFuri hpK huniqK,
      aggCell_of_two_distinct hx hy hxy]

/-- C1 (failing case): a subject with two identical `(S, p, "a")` triples
normalizes `p` to the scalar `"a"` — the wide table holds exactly one record
whose only field is the scalar — not to the 2-length sequence `["a", "a"]`
that the claim's duplicate-preserving reading demands. -/
theorem C1_counterexample_duplicates_collapse :
    (dfToWide [⟨"J", "p", "a"⟩, ⟨"J", "p", "a"⟩]).rows
      = [[("uri", Cell.str "J"), ("p", Cell.str "a")]]
  ∧ Cell.str "a" ≠ Cell.lst ["a", "a"] :=
  ⟨by decide, by decide⟩

/-- Long relation with languages `en, fr, en` for one subject. -/
def dfLangs : List Row :=
  [⟨"J", "q", "en"⟩, ⟨"J", "q", "fr"⟩, ⟨"J", "q", "en"⟩]

/-- Witness for C1's amended law on `dfLangs`: the field is the deduped
two-element sequence in first-occurrence order. -/
theorem C1_witness :
    mkWRow dfLangs "J" ∈ (dfToWide dfLangs).rows
  ∧ ∃ l, wget (mkWRow dfLangs "J") "q" = some (Cell.lst l) ∧ l.Nodup ∧
      l.Sublist (objectsOf dfLangs "J" "q") ∧
      (∀ z, z ∈ l ↔ z ∈ objectsOf dfLangs "J" "q") :=
  ⟨by decide,
   (C1_amended_cardinality dfLangs "q" "q" (mkWRow dfLangs "J") "J"
      (by decide) (by decide) (by decide) (by decide) (by decide)).2
     "en" "fr" (by decide) (by decide) (by decide)⟩

/-- Characterization of the boolean coercion
`str(value).lower() == 'true'`. -/
theorem strTrue_iff (c : Option Cell) :
    strTrue c = true ↔ ∃ s, c = some (Cell.str s) ∧ toLowerStr s = "true" := by
  cases c with
  | none => simp [strTrue]
  | some cell =>
    cases cell with
    | nan => simp [strTrue]
    | str s => simp [strTrue, beq_iff_eq]
    | lst l => simp [strTrue]

/-- Field equations of a successful `_wide_df_to_journals` row mapping. -/
theorem rowToJournal_ok_fields {r : WRow} {j : Journal}
    (h : rowToJournal r = .ok j) :
    j.hasAPC = strTrue (wget r "apc")
  ∧ j.hasDOAJSeal = strTrue (wget r "seal")
  ∧ j.languages = langsOf (wget r "language")
  ∧ idsOf (wget r "id") = .ok j.ids := by
  unfold rowToJournal at h
  cases hp : pubOf (wget r "publisher") with
  | error e => rw [hp] at h; cases h
  | ok pub =>
    rw [hp] at h
    cases hi : idsOf (wget r "id") with
    | error e => rw [hi] at h; cases h
    | ok ids =>
      rw [hi] at h
      simp only [Except.ok.injEq] at h
      subst h
      exact ⟨rfl, rfl, rfl, rfl⟩

/-- C7 (journal mapping normalization): whenever a wide record maps to a
`Journal`, the `apc` and `seal` booleans hold exactly when the cell is a
scalar string lower-casing to `"true"` (so absent, `NaN`, list-valued or any
other value defaults to `false`), and the `language` field is always
materialized into a sequence: absent or `NaN` becomes `[]`, a scalar is
wrapped, a list is kept. -/
theorem C7_journal_mapping (r : WRow) (j : Journal)
    (h : rowToJournal r = .ok j) :
    (j.hasAPC = true ↔
      ∃ s, wget r "apc" = some (Cell.str s) ∧ toLowerStr s = "true")
  ∧ (j.hasDOAJSeal = true ↔
      ∃ s, wget r "seal" = some (Cell.str s) ∧ toLowerStr s = "true")
  ∧ (wget r "language" = none → j.languages = [])
  ∧ (wget r "language" = some Cell.nan → j.languages = [])
  ∧ (∀ v, wget r "language" = some (Cell.str v) → j.languages = [v])
  ∧ (∀ l, wget r "language" = some (Cell.lst l) → j.languages = l) := by
  obtain ⟨ha, hs, hl, -⟩ := rowToJournal_ok_fields h
  refine ⟨?_, ?_, ?_, ?_, ?_, ?_⟩
  · rw [ha]; exact strTrue_iff _
  · rw [hs]; exact strTrue_iff _
  · intro hx; rw [hl, hx]; rfl
  · intro hx; rw [hl, hx]; rfl
  · intro v hx; rw [hl, hx]; rfl
  · intro l hx; rw [hl, hx]; rfl

/-- A wide record whose `apc` is `"True"`, with a scalar language. -/
def r7 : WRow :=
  [("uri", Cell.str "u"), ("apc", Cell.str "True"), ("id", Cell.str "J"),
   ("language", Cell.str "en"), ("seal", Cell.str "yes")]

/-- The Journal that `r7` maps to: `"True"` parses to `true`, `"yes"` does
not, and the scalar language is wrapped. -/
def j7 : Journal :=
  { ids := ["J"], title := none, publisher := none, languages := ["en"],
    hasDOAJSeal := false, licence := none, hasAPC := true }

/-- Witness for C7 at `r7`. -/
theorem C7_witness :
    rowToJournal r7 = .ok j7 ∧ j7.hasAPC = true ∧ j7.languages = ["en"] :=
  ⟨by decide,
   (C7_journal_mapping r7 j7 (by decide)).1.mpr ⟨"True", by decide, by decide⟩,
   (C7_journal_mapping r7 j7 (by decide)).2.2.2.2.1 "en" (by decide)⟩

/-- C6 (getEntityById precedence): if the combined bibliographic `getById`
relation is non-empty, the first mapped Journal is returned (category
handlers are not consulted); otherwise, if the combined category relation
has a row, the first mapped Category is returned; otherwise the result is
`None`, not an error. -/
theorem C6_getEntityById_precedence (e : Engine) (id : String) :
    (∀ (j : Journal) (js : List Journal), getByIdJDf e id ≠ [] →
      wideToJournals (dfToWide (getByIdJDf e id)) = .ok (j :: js) →
      getEntityById e id = .ok (some (Entity.journal j)))
  ∧ (∀ (r : CatRow) (rs : List CatRow), getByIdJDf e id = [] →
      combineC e.categoryQuery (fun h => h.getById id) = .ok (some (r :: rs)) →
      getEntityById e id = .ok (some (Entity.category (catOfRow r))))
  ∧ (∀ (o : Option (List CatRow)), getByIdJDf e id = [] →
      combineC e.categoryQuery (fun h => h.getById id) = .ok o →
      o.getD [] = [] → getEntityById e id = .ok none) := by
  refine ⟨?_, ?_, ?_⟩
  · intro j js hne hok
    unfold getEntityById
    rw [List.isEmpty_eq_false.2 hne, hok]
    rfl
  · intro r rs hemp hcomb
    unfold getEntityById
    rw [hemp, hcomb]
    rfl
  · intro o hemp hcomb hnil
    unfold getEntityById
    rw [hemp, hcomb]
    simp [hnil]

/-- Witness for C6: the fixture engine resolves a journal id to its Journal,
a category id to its Category, and an unknown id to `None`. -/
theorem C6_witness :
    getEntityById eFix "1234-5678" = .ok (some (Entity.journal jFix))
  ∧ getEntityById eFix "Botany"
      = .ok (some (Entity.category (catOfRow ⟨"Botany", some "Q3", "Plant Science"⟩)))
  ∧ getEntityById eFix "none-such" = .ok none :=
  ⟨(C6_getEntityById_precedence eFix "1234-5678").1 jFix [] (by decide)
      (by decide),
   (C6_getEntityById_precedence eFix "Botany").2.1
      ⟨"Botany", some "Q3", "Plant Science"⟩ [] (by decide) (by decide),
   (C6_getEntityById_precedence eFix "none-such").2.2
      (some []) (by decide) (by decide) (by decide)⟩

theorem wideToJournals_ok_countP {d : WideDf} {js : List Journal}
    (h : wideToJournals d = .ok js) (p : Journal → Bool) :
    js.countP p = d.rows.countP (fun r => okSat p (rowToJournal r)) := by
  unfold wideToJournals at h
  by_cases he : d.rows.isEmpty
  · rw [if_pos he] at h
    simp only [Except.ok.injEq] at h
    subst h
    rw [List.isEmpty_iff.1 he]
    rfl
  · rw [if_neg he] at h
    exact exceptMapM_ok_countP h p

theorem wideToJournals_ok_forall {d : WideDf} {js : List Journal}
    (h : wideToJournals d = .ok js) :
    ∀ r ∈ d.rows, ∃ j, rowToJournal r = .ok j := by
  unfold wideToJournals at h
  by_cases he : d.rows.isEmpty
  · rw [List.isEmpty_iff.1 he]
    intro r hr
    cases hr
  · rw [if_neg he] at h
    exact exceptMapM_ok_forall h

theorem keyMatch_iff (c : Option Cell) (k : String) :
    keyMatch c k = true ↔ c = some (Cell.str k) := by
  cases c with
  | none => simp [keyMatch]
  | some cell => cases cell <;> simp [keyMatch, beq_iff_eq]

/-- Shape of a successful inner join: one output record per (record,
matching link) pair, in left order, and no record had a list-valued key. -/
theorem mergeLinks_ok {d : WideDf} {links : List LinkRow} {m : WideDf}
    (h : mergeLinks d links = .ok m) :
    m.rows = (d.rows.map (fun r =>
      (links.filter (fun l => keyMatch (wget r "issn") l.issn)).map
        (fun l => r ++ [("category_id", Cell.str l.category_id)]))).flatten
  ∧ ∀ r ∈ d.rows, (match wget r "issn" with
      | some (Cell.lst _) => true
      | _ => false) = false := by
  unfold mergeLinks at h
  by_cases hc : (d.rows.any (fun r => match wget r "issn" with
      | some (Cell.lst _) => true
      | _ => false)) = true
  · rw [if_pos hc] at h; cases h
  · rw [if_neg hc] at h
    simp only [Except.ok.injEq] at h
    subst h
    refine ⟨rfl, ?_⟩
    intro r hr
    cases hm : (match wget r "issn" with
        | some (Cell.lst _) => true
        | _ => false) with
    | false => rfl
    | true => exact absurd (List.any_eq_true.2 ⟨r, hr, hm⟩) hc

theorem wget_eq_none_of_not_mem {r : WRow} {k : String}
    (h : k ∉ r.map Prod.fst) : wget r k = none := by
  have hf : List.find? (fun kv => kv.1 == k) r = none :=
    List.find?_eq_none.2 (fun kv hkv hbeq =>
      h (List.mem_map.2 ⟨kv, hkv, beq_iff_eq.1 hbeq⟩))
  unfold wget
  rw [hf]
  rfl

/-- Renaming `issn` back to `id` on a joined record recovers the join key:
the first `id` field of the renamed record is the first `issn` field of the
original (which carries no `id` field). -/
theorem wget_rename_aug (r : WRow) (c : Cell)
    (hnoid : "id" ∉ r.map Prod.fst) :
    wget ((r ++ [("category_id", c)]).map
      (fun kv => (issnToId kv.1, kv.2))) "id" = wget r "issn" := by
  induction r with
  | nil => rfl
  | cons kv t ih =>
    obtain ⟨k, v⟩ := kv
    have hk : k ≠ "id" := by
      intro he
      exact hnoid (by simp [he])
    have hnoid' : "id" ∉ t.map Prod.fst := by
      intro hm
      exact hnoid (by simp [hm])
    by_cases hks : k = "issn"
    · subst hks
      simp only [List.cons_append, List.map_cons]
      have h1 : issnToId "issn" = "id" := rfl
      rw [h1, wget_cons_self, wget_cons_self]
    · simp only [List.cons_append, List.map_cons]
      have h1 : issnToId k = k := by
        simp [issnToId, hks]
      rw [h1, wget_cons_of_ne hk, wget_cons_of_ne hks, ih hnoid']

theorem mkWRow_names (df : List Row) (s : String) :
    (mkWRow df s).map Prod.fst = "uri" :: (predKeys df).map localName := by
  simp [mkWRow, List.map_map, Function.comp]

theorem dfToWide_row_names {df : List Row} {r : WRow}
    (hr : r ∈ (dfToWide df).rows) : r.map Prod.fst = (dfToWide df).cols := by
  have hne : df.isEmpty = false := by
    by_contra hx
    have hx' : df.isEmpty = true := by
      cases hh : df.isEmpty
      · exact absurd hh hx
      · rfl
    unfold dfToWide at hr
    rw [if_pos hx'] at hr
    cases hr
  obtain ⟨s, -, hreq⟩ := mem_dfToWide_rows hr
  subst hreq
  unfold dfToWide
  rw [if_neg (by simp [hne])]
  exact mkWRow_names df s

theorem idToIssn_ne_id (k : String) : idToIssn k ≠ "id" := by
  by_cases h : k = "id" <;> simp [idToIssn, h]

theorem jicq_row_names {e : Engine} {r : WRow}
    (hr : r ∈ (jicqWideDf e).rows) :
    r.map Prod.fst = (jicqWideDf e).cols ∧ "id" ∉ r.map Prod.fst := by
  unfold jicqWideDf renameDf at hr ⊢
  rcases List.mem_map.1 hr with ⟨r0, hr0, hreq⟩
  subst hreq
  constructor
  · show List.map Prod.fst (r0.map (fun kv => (idToIssn kv.1, kv.2)))
      = List.map idToIssn (dfToWide (getAllJournalsDf e)).cols
    rw [← dfToWide_row_names hr0, List.map_map, List.map_map]
    rfl
  · intro hm
    rw [List.map_map] at hm
    rcases List.mem_map.1 hm with ⟨kv, -, hkv⟩
    exact idToIssn_ne_id kv.1 hkv

theorem jicqWideDf_rows_of_empty {e : Engine}
    (hemp : (getAllJournalsDf e).isEmpty = true) :
    (jicqWideDf e).rows = [] := by
  unfold jicqWideDf dfToWide renameDf
  rw [if_pos hemp]
  rfl

/-- Per-record multiplicity of the join: among the links matching a record's
join key, those with `issn = i` each contribute one mapped Journal whose
identifier list is `[i]`, provided every joined record maps successfully. -/
theorem jicq_mult_row (FL : List LinkRow) (i : String) (r : WRow)
    (hnoid : "id" ∉ r.map Prod.fst)
    (hok : ∀ l ∈ FL.filter (fun l => keyMatch (wget r "issn") l.issn),
      ∃ j, rowToJournal ((r ++ [("category_id", Cell.str l.category_id)]).map
        (fun kv => (issnToId kv.1, kv.2))) = .ok j)
    (hnolst : (match wget r "issn" with
      | some (Cell.lst _) => true
      | _ => false) = false) :
    List.countP (fun l => okSat (fun j => j.ids == [i])
        (rowToJournal ((r ++ [("category_id", Cell.str l.category_id)]).map
          (fun kv => (issnToId kv.1, kv.2)))))
      (FL.filter (fun l => keyMatch (wget r "issn") l.issn))
    = if wget r "issn" == some (Cell.str i)
      then FL.countP (fun l => l.issn == i) else 0 := by
  cases hkey : wget r "issn" with
  | none =>
    rw [if_neg (fun hx => Option.noConfusion (beq_iff_eq.1 hx))]
    rw [show FL.filter (fun l => keyMatch none l.issn) = [] from
      List.filter_eq_nil_iff.2 (fun (l : LinkRow) _ => by simp [keyMatch])]
    rfl
  | some cell =>
    cases cell with
    | nan =>
      rw [if_neg (fun hx => Cell.noConfusion
        (Option.some.inj (beq_iff_eq.1 hx)))]
      rw [show FL.filter (fun l => keyMatch (some Cell.nan) l.issn) = [] from
        List.filter_eq_nil_iff.2 (fun (l : LinkRow) _ => by simp [keyMatch])]
      rfl
    | lst ll =>
      rw [hkey] at hnolst
      cases hnolst
    | str x =>
      by_cases hxi : x = i
      · subst hxi
        rw [if_pos (beq_iff_eq.2 rfl)]
        refine Eq.trans (@List.countP_congr LinkRow _
          (fun l => l.issn == x) _ ?_) ?_
        · intro l hl
          rcases List.mem_filter.1 hl with ⟨hlFL, hkm⟩
          have hxl : x = l.issn :=
            Cell.str.inj (Option.some.inj ((keyMatch_iff _ _).1 hkm))
          rcases hok l (by rw [hkey]; exact hl) with ⟨j, hj⟩
          have hids := (rowToJournal_ok_fields hj).2.2.2
          rw [wget_rename_aug r (Cell.str l.category_id) hnoid, hkey,
            hxl] at hids
          have hjids : j.ids = [l.issn] := by
            simp only [idsOf, Except.ok.injEq] at hids
            exact hids.symm
          rw [hj]
          show okSat (fun j => j.ids == [x]) (Except.ok j) = true
            ↔ (l.issn == x) = true
          simp [okSat, hjids, beq_iff_eq, hxl]
        · rw [List.countP_filter]
          refine @List.countP_congr LinkRow _ (fun l => l.issn == x) _ ?_
          intro l hlFL
          constructor
          · intro hb
            exact (Bool.and_eq_true _ _ ▸ hb).1
          · intro hb
            rw [Bool.and_eq_true]
            refine ⟨hb, (keyMatch_iff _ _).2 ?_⟩
            rw [beq_iff_eq.1 hb]
      · rw [if_neg (fun hx =>
          hxi (Cell.str.inj (Option.some.inj (beq_iff_eq.1 hx))))]
        refine List.countP_eq_zero.2 ?_
        intro l hl hcontra
        rcases List.mem_filter.1 hl with ⟨hlFL, hkm⟩
        have hxl : x = l.issn :=
          Cell.str.inj (Option.some.inj ((keyMatch_iff _ _).1 hkm))
        rcases hok l (by rw [hkey]; exact hl) with ⟨j, hj⟩
        have hids := (rowToJournal_ok_fields hj).2.2.2
        rw [wget_rename_aug r (Cell.str l.category_id) hnoid, hkey,
          hxl] at hids
        have hjids : j.ids = [l.issn] := by
          simp only [idsOf, Except.ok.injEq] at hids
          exact hids.symm
        rw [hj] at hcontra
        have : l.issn = i := by
          have h3 : (j.ids == [i]) = true := hcontra
          rw [hjids] at h3
          have h4 := beq_iff_eq.1 h3
          exact (List.cons.injEq _ _ _ _ ▸ h4).1
        exact hxi (hxl.trans this)

/-- Summation of the per-record counts against a one-record table. -/
theorem sum_rows_mult {α : Type} (rows : List α) (f : α → ℕ) (p : α → Bool)
    (n : ℕ) (hf : ∀ r ∈ rows, f r = if p r then n else 0) :
    (rows.map f).sum = rows.countP p * n := by
  induction rows with
  | nil => simp
  | cons a t ih =>
    have ha := hf a (List.mem_cons_self a t)
    have ht := ih (fun r hr => hf r (List.mem_cons_of_mem _ hr))
    by_cases hp : p a = true <;>
      simp [ha, ht, hp, List.countP_cons, Nat.add_mul, Nat.add_comm]

/-- C10 (per-link multiplicity): on any engine state where the combined link
and category relations are fetched successfully, the compound query succeeds
and the wide bibliographic table carries exactly one record with join key
`i`, the returned sequence holds exactly one Journal entity with identifier
`i` per surviving link of `i` — the inner join yields one row per (journal,
surviving link) pair and nothing deduplicates after the join. -/
theorem C10_per_link_multiplicity (e : Engine) (cs qs : List String)
    (res : List Journal) (links : List LinkRow) (allCats : List CatRow)
    (i : String)
    (hlinks : combineC e.categoryQuery (fun h => h.getCategoryLinks)
      = .ok (some links))
    (hcats : combineC e.categoryQuery (fun h => h.getAllCategories)
      = .ok (some allCats))
    (hres : getJournalsInCategoriesWithQuartile e cs qs = .ok res)
    (hw : (jicqWideDf e).rows.countP
      (fun r => wget r "issn" == some (Cell.str i)) = 1) :
    res.countP (fun j => j.ids == [i])
      = (survivingLinks links allCats cs qs).countP (fun l => l.issn == i) := by
  unfold getJournalsInCategoriesWithQuartile at hres
  by_cases hemp : (getAllJournalsDf e).isEmpty = true
  · rw [jicqWideDf_rows_of_empty hemp] at hw
    simp at hw
  · rw [if_neg hemp, hlinks] at hres
    have hres2 : (if links.isEmpty then (.ok [] : Except PyErr (List Journal))
        else
          match combineC e.categoryQuery (fun h => h.getAllCategories) with
          | .error er => .error er
          | .ok catsOpt =>
            if !(jicqWideDf e).cols.contains "issn" then .ok []
            else
              match mergeLinks (jicqWideDf e)
                  (survivingLinks links (catsOpt.getD []) cs qs) with
              | .error er => .error er
              | .ok merged => wideToJournals (renameDf issnToId merged))
        = .ok res := hres
    by_cases hle : links.isEmpty = true
    · rw [if_pos hle] at hres2
      simp only [Except.ok.injEq] at hres2
      subst hres2
      rw [List.isEmpty_iff.1 hle]
      simp [survivingLinks]
    · rw [if_neg hle, hcats] at hres2
      have hres3 : (if !(jicqWideDf e).cols.contains "issn"
          then (.ok [] : Except PyErr (List Journal))
          else
            match mergeLinks (jicqWideDf e)
                (survivingLinks links allCats cs qs) with
            | .error er => .error er
            | .ok merged => wideToJournals (renameDf issnToId merged))
          = .ok res := hres2
      by_cases hcol : ((jicqWideDf e).cols.contains "issn") = true
      · rw [if_neg (show ¬((!(jicqWideDf e).cols.contains "issn") = true) by
          rw [hcol]; exact Bool.false_ne_true)] at hres3
        cases hmerge : mergeLinks (jicqWideDf e)
            (survivingLinks links allCats cs qs) with
        | error er => rw [hmerge] at hres3; cases hres3
        | ok merged =>
          rw [hmerge] at hres3
          obtain ⟨hshape, hnolst⟩ := mergeLinks_ok hmerge
          have hfa := wideToJournals_ok_forall hres3
          rw [wideToJournals_ok_countP hres3 (fun j => j.ids == [i])]
          have hrows : (renameDf issnToId merged).rows
              = merged.rows.map
                  (fun r => r.map (fun kv => (issnToId kv.1, kv.2))) := rfl
          rw [hrows, List.countP_map, hshape, List.countP_flatten,
            List.map_map]
          refine Eq.trans (sum_rows_mult (jicqWideDf e).rows _
            (fun r => wget r "issn" == some (Cell.str i))
            ((survivingLinks links allCats cs qs).countP
              (fun l => l.issn == i)) ?_) ?_
          · intro r hr
            have hnoid := (jicq_row_names hr).2
            have hok : ∀ l ∈ (survivingLinks links allCats cs qs).filter
                (fun l => keyMatch (wget r "issn") l.issn),
                ∃ j, rowToJournal
                  ((r ++ [("category_id", Cell.str l.category_id)]).map
                    (fun kv => (issnToId kv.1, kv.2))) = .ok j := by
              intro l hl
              refine hfa _ ?_
              rw [hrows]
              refine List.mem_map.2
                ⟨r ++ [("category_id", Cell.str l.category_id)], ?_, rfl⟩
              rw [hshape]
              exact List.mem_flatten.2 ⟨_, List.mem_map.2 ⟨r, hr, rfl⟩,
                List.mem_map.2 ⟨l, hl, rfl⟩⟩
            show List.countP (fun rr => okSat (fun j => j.ids == [i])
                (rowToJournal (rr.map (fun kv => (issnToId kv.1, kv.2)))))
              (((survivingLinks links allCats cs qs).filter
                (fun l => keyMatch (wget r "issn") l.issn)).map
                (fun l => r ++ [("category_id", Cell.str l.category_id)]))
              = if wget r "issn" == some (Cell.str i)
                then (survivingLinks links allCats cs qs).countP
                  (fun l => l.issn == i)
                else 0
            rw [List.countP_map]
            exact jicq_mult_row (survivingLinks links allCats cs qs) i r
              hnoid hok ((mergeLinks_ok hmerge).2 r hr)
          · rw [hw, Nat.one_mul]
      · have hc0 : (jicqWideDf e).cols.contains "issn" = false := by
          cases hcc : (jicqWideDf e).cols.contains "issn"
          · rfl
          · exact absurd hcc hcol
        have hnm : "issn" ∉ (jicqWideDf e).cols := by
          intro hm
          have hc1 : (jicqWideDf e).cols.contains "issn" = true :=
            List.elem_iff.2 hm
          rw [hc0] at hc1
          cases hc1
        have hzero : (jicqWideDf e).rows.countP
            (fun r => wget r "issn" == some (Cell.str i)) = 0 := by
          refine List.countP_eq_zero.2 ?_
          intro r hr hcontra
          have hnames := (jicq_row_names hr).1
          have hnone : wget r "issn" = none :=
            wget_eq_none_of_not_mem (by rw [hnames]; exact hnm)
          rw [hnone] at hcontra
          exact Option.noConfusion (beq_iff_eq.1 hcontra)
        rw [hzero] at hw
        exact absurd hw (by decide)

/-- Category handler linking the fixture journal to two categories. -/
def chTwo : CHandler :=
  { getById := fun _ => .ok [],
    getAllCategories := .ok [⟨"Botany", some "Q3", "Plant Science"⟩,
      ⟨"Oncology", some "Q1", "Medicine"⟩],
    getAllAreas := .ok [⟨"Plant Science"⟩, ⟨"Medicine"⟩],
    getCategoryLinks := .ok [⟨"1234-5678", "Botany"⟩,
      ⟨"1234-5678", "Oncology"⟩] }

/-- Engine whose single journal carries two surviving category links. -/
def eTwo : Engine := ⟨[jhFix], [chTwo]⟩

/-- Witness for C10: with two surviving links the journal appears twice. -/
theorem C10_witness :
    getJournalsInCategoriesWithQuartile eTwo [] [] = .ok [jFix, jFix]
  ∧ List.countP (fun j => j.ids == ["1234-5678"]) [jFix, jFix]
      = List.countP (fun l => l.issn == "1234-5678")
          (survivingLinks
            [⟨"1234-5678", "Botany"⟩, ⟨"1234-5678", "Oncology"⟩]
            [⟨"Botany", some "Q3", "Plant Science"⟩,
             ⟨"Oncology", some "Q1", "Medicine"⟩] [] [])
  ∧ List.countP (fun j => j.ids == ["1234-5678"]) [jFix, jFix] = 2 :=
  ⟨by decide,
   C10_per_link_multiplicity eTwo [] [] [jFix, jFix]
     [⟨"1234-5678", "Botany"⟩, ⟨"1234-5678", "Oncology"⟩]
     [⟨"Botany", some "Q3", "Plant Science"⟩,
      ⟨"Oncology", some "Q1", "Medicine"⟩] "1234-5678"
     (by decide) (by decide) (by decide) (by decide),
   by decide⟩

/-- The pandas comparison of an object cell with the boolean `False` never
succeeds: strings, `NaN` and lists all compare unequal to a boolean. -/
theorem pyEqFalse_false (c : Option Cell) : pyEqFalse c = false := by
  cases c with
  | none => rfl
  | some cell => cases cell <;> rfl

/-- Joining a frame with no records yields no records. -/
theorem mergeLinks_rows_nil {d : WideDf} (links : List LinkRow)
    (h : d.rows = []) :
    mergeLinks d links = .ok ⟨d.cols ++ ["category_id"], []⟩ := by
  unfold mergeLinks
  rw [h]
  rfl

/-- The diamond frame never holds a record. -/
theorem diamondDf_rows (e : Engine) : (diamondDf e).rows = [] := by
  unfold diamondDf
  exact List.filter_eq_nil_iff.2 (fun r _ => by simp [pyEqFalse_false])

/-- C2 (diamond definition, failing case): whenever the diamond query
returns at all, it returns the empty list — the filter compares the string
cells of the `apc` column with the boolean `False`, which no object cell
ever equals — even though the fixture journal of the spec's scenario has
`hasAPC = false` and passes the category, quartile and link-join filters of
`getJournalsInCategoriesWithQuartile`. -/
theorem C2_diamond_empty_on_matching_fixture :
    (∀ (e : Engine) (areas cs qs : List String),
      (getDiamondJournalsInAreasAndCategoriesWithQuartile
        e areas cs qs).toOption.getD [] = [])
  ∧ getDiamondJournalsInAreasAndCategoriesWithQuartile eFix
      ["Plant Science"] [] ["Q3"] = .ok []
  ∧ getJournalsInCategoriesWithQuartile eFix ["Botany"] ["Q3"] = .ok [jFix]
  ∧ jFix.hasAPC = false
  ∧ pyEqFalse (some (Cell.str "false")) = false := by
  refine ⟨?_, by decide, by decide, rfl, rfl⟩
  intro e areas cs qs
  unfold getDiamondJournalsInAreasAndCategoriesWithQuartile
  by_cases hemp : (getAllJournalsDf e).isEmpty = true
  · rw [if_pos hemp]; rfl
  · rw [if_neg hemp]
    by_cases hcol : (!(dfToWide (getAllJournalsDf e)).cols.contains "apc")
        = true
    · rw [if_pos hcol]; rfl
    · rw [if_neg hcol]
      cases hL : combineC e.categoryQuery (fun h => h.getCategoryLinks) with
      | error er => rfl
      | ok linksOpt =>
        cases hC : combineC e.categoryQuery (fun h => h.getAllCategories) with
        | error er => rfl
        | ok catsOpt =>
          cases catsOpt with
          | none => rfl
          | some allCats =>
            show (if !(renameDf idToIssn (diamondDf e)).cols.contains "issn"
                then (.ok [] : Except PyErr (List Journal))
                else
                  match mergeLinks (renameDf idToIssn (diamondDf e))
                      ((linksOpt.getD []).filter (fun l =>
                        (diamondTargetIds allCats areas cs qs).contains
                          l.category_id)) with
                  | .error er => .error er
                  | .ok merged =>
                    wideToJournals (renameDf issnToId merged)).toOption.getD []
              = []
            by_cases hco : (!(renameDf idToIssn
                (diamondDf e)).cols.contains "issn") = true
            · rw [if_pos hco]; rfl
            · rw [if_neg hco]
              have hrows : (renameDf idToIssn (diamondDf e)).rows = [] := by
                show ((diamondDf e).rows.map _) = []
                rw [diamondDf_rows]
                rfl
              rw [mergeLinks_rows_nil _ hrows]
              rfl

end OrientExpress
